import Mathlib

/-!
# Verification of the reservation file-processing pipeline

Shallow embedding of the core pipeline of the booking-processing service:
cell normalization, row validation, duplicate tracking, the business rule
engine over the reservation store, error-report generation and the task
orchestrator (`FileProcessor.process`).

Sources embedded:
* `src/processing/file.processor.ts` — `FileProcessor` (normalization,
  DTO mapping, validation-error mapping, the streaming loop).
* `src/reports/reports.service.ts` — `ReportsService.generateReport`,
  `mapError`, the `ReservationRowDto` validators (incl.
  `IsCheckOutAfterCheckIn`).
* `src/reservations/reservations.service.ts` — `ReservationsService`
  (`findByReservationId`, `upsert`, `updateStatus`, `processReservation`).
* `src/reservations/schemas/reservation.schema.ts` — `ReservationStatus`.
* `tasks.service.ts` — `TasksService.updateStatus`, `completeTask`,
  `emitProgress`.

Modelling conventions: JavaScript `Date` values are millisecond timestamps
(`Int`), with the local time zone taken as UTC (offset 0); an Invalid Date
is `Option.none` where it matters (`new Date(string)`).  Machine numbers
are `Int` (the pipeline only ever uses integral values).  Exceptions are
modelled by `Option`/oracle parameters at the two places the code can
throw inside the orchestrator's `try` blocks: a per-row persistence fault
(store/queue infrastructure) and a stream fault (the `for await` loop
itself).
-/

namespace BPS

/-! ## Calendar arithmetic (model of the JS `Date` operations used) -/

/-- Milliseconds per day (`24 * 60 * 60 * 1000` in `excelDateToJSDate`). -/
def msPerDay : Int := 86400000

/-- Gregorian leap year (proleptic, as JS `Date` uses). -/
def isLeap (y : Int) : Bool := (y % 4 = 0 && y % 100 ≠ 0) || y % 400 = 0

/-- Days in a month of the proleptic Gregorian calendar. -/
def daysInMonth (y : Int) (m : Nat) : Nat :=
  if m = 2 then (if isLeap y then 29 else 28)
  else if m = 4 ∨ m = 6 ∨ m = 9 ∨ m = 11 then 30
  else 31

/-- Civil date from a day count relative to 1970-01-01 (the standard
`civil_from_days` algorithm; models the year/month/day extraction the JS
engine performs for `getFullYear`/`getMonth`/`getDate`). -/
def civilFromDays (z : Int) : Int × Nat × Nat :=
  let z' := z + 719468
  let era := z'.fdiv 146097
  let doe := (z' - era * 146097).toNat
  let yoe := (doe - doe / 1460 + doe / 36524 - doe / 146096) / 365
  let y := era * 400 + (yoe : Int)
  let doy := doe - (365 * yoe + yoe / 4 - yoe / 100)
  let mp := (5 * doy + 2) / 153
  let d := doy - (153 * mp + 2) / 5 + 1
  let m := if mp < 10 then mp + 3 else mp - 9
  (if m ≤ 2 then y + 1 else y, m, d)

/-- Day count relative to 1970-01-01 of a civil date (the standard
`days_from_civil` algorithm; models the JS engine's date-to-timestamp
conversion). -/
def daysFromCivil (y : Int) (m d : Nat) : Int :=
  let y' := if m ≤ 2 then y - 1 else y
  let era := y'.fdiv 400
  let yoe := (y' - era * 400).toNat
  let doy := (153 * (if 2 < m then m - 3 else m + 9) + 2) / 5 + d - 1
  let doe := yoe * 365 + yoe / 4 - yoe / 100 + doy
  era * 146097 + (doe : Int) - 719468

/-- `String(n).padStart(2, '0')` for the month/day components. -/
def pad2 (n : Nat) : String := if n < 10 then "0" ++ toString n else toString n

/-- `FileProcessor.formatDate`: renders a JS `Date` (ms timestamp, local
offset 0) as `YYYY-MM-DD`, discarding the time of day. -/
def formatDate (ms : Int) : String :=
  match civilFromDays (ms.fdiv msPerDay) with
  | (y, m, d) => toString y ++ "-" ++ pad2 m ++ "-" ++ pad2 d

/-- `FileProcessor.excelDateToJSDate`: `new Date(1899, 11, 30)` (the Excel
epoch 1899-12-30, local midnight) plus `excelDate * msPerDay`. -/
def excelDateToJSDate (excelDate : Int) : Int :=
  daysFromCivil 1899 12 30 * msPerDay + excelDate * msPerDay

/-- Splits a `YYYY-MM-DD` string into its numeric components. -/
def parseYMD (s : String) : Option (Int × Nat × Nat) :=
  match s.data with
  | [y1, y2, y3, y4, h1, m1, m2, h2, d1, d2] =>
    if y1.isDigit && y2.isDigit && y3.isDigit && y4.isDigit && h1 = '-' &&
        m1.isDigit && m2.isDigit && h2 = '-' && d1.isDigit && d2.isDigit then
      some (((y1.toNat - 48) * 1000 + (y2.toNat - 48) * 100 +
              (y3.toNat - 48) * 10 + (y4.toNat - 48) : Nat),
            (m1.toNat - 48) * 10 + (m2.toNat - 48),
            (d1.toNat - 48) * 10 + (d2.toNat - 48))
    else none
  | _ => none

/-- `new Date(string)` on the restricted domain this development reasons
about: the empty string and 10-character `YYYY-MM-DD`-shaped strings
(`parseYMD` succeeds).  On that domain it agrees with the engine: the
ECMA date-format parse yields the UTC midnight timestamp, and an
out-of-range month or day (e.g. `2024-02-30`) is an Invalid Date
(`none`).  Node's legacy parser additionally accepts formats outside
this shape (e.g. `2024/05/01`), which this model maps to Invalid Date —
so any statement about arbitrary date cells must be restricted to the
shaped-or-empty domain. -/
def jsParseDate (s : String) : Option Int :=
  match parseYMD s with
  | some (y, m, d) =>
    if 1 ≤ m ∧ m ≤ 12 ∧ 1 ≤ d ∧ d ≤ daysInMonth y m then
      some (daysFromCivil y m d * msPerDay)
    else none
  | none => none

/-- The JS `>` comparison on two possibly-Invalid `Date`s: any comparison
involving `NaN` is `false`. -/
def jsDateGt : Option Int → Option Int → Bool
  | some a, some b => b < a
  | _, _ => false

/-! ## Cell values and normalization (`FileProcessor`) -/

/-- JS `String.prototype.trim()`: strips leading and trailing whitespace
(space, tab, carriage return, line feed). -/
def jsTrim (s : String) : String :=
  ⟨((s.data.dropWhile Char.isWhitespace).reverse.dropWhile
      Char.isWhitespace).reverse⟩

/-- The shapes of `ExcelJS.CellValue` distinguished by the normalizers:
null/undefined, primitive string, number, boolean, native `Date`, rich
text (its list of run texts), and every other shape collapsed to
`other`. -/
inductive CellValue where
  | nullv
  | str (s : String)
  | num (n : Int)
  | boolv (b : Bool)
  | date (ms : Int)
  | richText (runs : List String)
  | other
  deriving DecidableEq, Repr

/-- `FileProcessor.normalizeValue` (text/identifier/status columns). -/
def normalizeValue : CellValue → String
  | .nullv => ""
  | .str s => jsTrim s
  | .num n => toString n
  | .boolv b => if b then "true" else "false"
  | .date ms => formatDate ms
  | .richText runs => String.join runs
  | .other => ""

/-- `FileProcessor.normalizeDate` (date columns). -/
def normalizeDate : CellValue → String
  | .nullv => ""
  | .date ms => formatDate ms
  | .str s => jsTrim s
  | .num n => formatDate (excelDateToJSDate n)
  | .boolv _ => ""
  | .richText _ => ""
  | .other => ""

/-! ## The row DTO and its validation (`ReservationRowDto`) -/

/-- `ReservationStatus.PENDING` (`reservation.schema.ts`). -/
def statusPending : String := "oczekująca"

/-- `ReservationStatus.COMPLETED` (`reservation.schema.ts`). -/
def statusCompleted : String := "zrealizowana"

/-- `ReservationStatus.CANCELLED` (`reservation.schema.ts`). -/
def statusCancelled : String := "anulowana"

/-- `ReservationRowDto`: the five normalized cell strings of one row. -/
structure ReservationRowDto where
  reservationId : String
  guestName : String
  status : String
  checkInDate : String
  checkOutDate : String
  deriving DecidableEq, Repr

/-- The `class-validator` constraint kinds attached to `ReservationRowDto`
(the object keys inspected by `mapConstraintToErrorCode`).  `IsString`
never fails because normalization always yields strings, so it needs no
constructor. -/
inductive ConstraintKind where
  | isNotEmpty
  | isEnum
  | isDateString
  | isCheckOutAfterCheckIn
  deriving DecidableEq, Repr

/-- One `class-validator` `ValidationError`: the offending property and
the set of failed constraints on it. -/
structure ValidationError where
  property : String
  constraints : List ConstraintKind
  deriving DecidableEq, Repr

/-- `@IsNotEmpty`: fails exactly on the empty string (the normalized
values are never null/undefined). -/
def isNotEmptyB (s : String) : Bool := s ≠ ""

/-- `@IsEnum(ReservationStatus)`: membership in the three status
literals. -/
def isEnumStatusB (s : String) : Bool :=
  s = statusPending || s = statusCompleted || s = statusCancelled

/-- `@IsDateString({})` (validator.js `isISO8601`, non-strict) on the
same restricted domain: for `YYYY-MM-DD`-shaped strings the non-strict
check is the regex range check — month `01`–`12`, day `01`–`31`, layout
only, so impossible dates such as `2024-02-30` still pass.  The real
validator also accepts other ISO 8601 forms (date-times such as
`2024-05-07T10:00:00Z`, year-only, week and ordinal dates); those lie
outside the shaped-or-empty domain and are rejected by this model. -/
def isDateStringB (s : String) : Bool :=
  match parseYMD s with
  | some (_, m, d) => 1 ≤ m && m ≤ 12 && 1 ≤ d && d ≤ 31
  | none => false

/-- `IsCheckOutAfterCheckIn.validate`: vacuously true when either date
string is empty (falsy); otherwise the JS comparison
`new Date(checkOut) > new Date(checkIn)`, which is `false` whenever either
side is an Invalid Date. -/
def isCheckOutAfterCheckInB (checkIn checkOut : String) : Bool :=
  if checkIn = "" || checkOut = "" then true
  else jsDateGt (jsParseDate checkOut) (jsParseDate checkIn)

/-- Helper building the `ValidationError` entry for one property from its
list of failed constraints (`class-validator` reports a property at all
only when at least one constraint failed). -/
def propertyErrors (prop : String) (failed : List ConstraintKind) :
    List ValidationError :=
  if failed = [] then [] else [⟨prop, failed⟩]

/-- `validate(dto)` for `ReservationRowDto`: every decorator runs (no
short-circuit), failed constraints are grouped per property, properties
are reported in declaration order. -/
def validateDto (dto : ReservationRowDto) : List ValidationError :=
  propertyErrors "reservationId"
      (if isNotEmptyB dto.reservationId then [] else [.isNotEmpty]) ++
  propertyErrors "guestName"
      (if isNotEmptyB dto.guestName then [] else [.isNotEmpty]) ++
  propertyErrors "status"
      ((if isEnumStatusB dto.status then [] else [.isEnum]) ++
       (if isNotEmptyB dto.status then [] else [.isNotEmpty])) ++
  propertyErrors "checkInDate"
      ((if isDateStringB dto.checkInDate then [] else [.isDateString]) ++
       (if isNotEmptyB dto.checkInDate then [] else [.isNotEmpty])) ++
  propertyErrors "checkOutDate"
      ((if isDateStringB dto.checkOutDate then [] else [.isDateString]) ++
       (if isNotEmptyB dto.checkOutDate then [] else [.isNotEmpty]) ++
       (if isCheckOutAfterCheckInB dto.checkInDate dto.checkOutDate then []
        else [.isCheckOutAfterCheckIn]))

/-! ## Error codes and report generation (`reports.service.ts`) -/

/-- `ReportErrorCode`. -/
inductive ReportErrorCode where
  | MISSING_FIELD
  | INVALID_DATE
  | INVALID_STATUS
  | CHECKOUT_BEFORE_CHECKIN
  | DUPLICATE
  | UNKNOWN
  deriving DecidableEq, Repr

/-- `RawReportError`: one accumulated row-level or file-level error. -/
structure RawReportError where
  row : Nat
  code : ReportErrorCode
  field : Option String := none
  message : Option String := none
  deriving DecidableEq, Repr

/-- `FileProcessor.mapConstraintToErrorCode`: the precedence chain over
the failed-constraint keys. -/
def mapConstraintToErrorCode (e : ValidationError) : ReportErrorCode :=
  if ConstraintKind.isEnum ∈ e.constraints then .INVALID_STATUS
  else if ConstraintKind.isDateString ∈ e.constraints then .INVALID_DATE
  else if ConstraintKind.isNotEmpty ∈ e.constraints then .MISSING_FIELD
  else if ConstraintKind.isCheckOutAfterCheckIn ∈ e.constraints then
    .CHECKOUT_BEFORE_CHECKIN
  else .UNKNOWN

/-- `FileProcessor.mapValidationErrors`. -/
def mapValidationErrors (row : Nat) (errs : List ValidationError) :
    List RawReportError :=
  errs.map fun e => ⟨row, mapConstraintToErrorCode e, some e.property, none⟩

/-- One line of the generated report (`ErrorReportItem`). -/
structure ErrorReportItem where
  row : Nat
  reason : String
  suggestion : String
  deriving DecidableEq, Repr

/-- JS template interpolation of a possibly-`undefined` value. -/
def optStr : Option String → String
  | some s => s
  | none => "undefined"

/-- `ReportsService.mapError`. -/
def mapError (e : RawReportError) : ErrorReportItem :=
  match e.code with
  | .MISSING_FIELD =>
    ⟨e.row, "Missing required field: " ++ optStr e.field,
      "Provide value for field \"" ++ optStr e.field ++ "\""⟩
  | .INVALID_DATE =>
    ⟨e.row, "Invalid date format in field: " ++ optStr e.field,
      "Use YYYY-MM-DD format"⟩
  | .INVALID_STATUS =>
    ⟨e.row, "Invalid reservation status",
      "Use one of allowed values: oczekująca, zrealizowana, anulowana"⟩
  | .CHECKOUT_BEFORE_CHECKIN =>
    ⟨e.row, "Check-out date is before check-in date",
      "Ensure check-out date is after check-in date"⟩
  | .DUPLICATE =>
    ⟨e.row, "Duplicate reservation ID: " ++ optStr e.field,
      "Remove duplicate entry or use unique reservation ID"⟩
  | .UNKNOWN =>
    ⟨e.row, (e.message).getD "Unknown error", "Verify row data"⟩

/-- The value `ReportsService.generateReport` returns together with the
`fs.writeFile` call it performed (`none` when no artifact is written). -/
structure Report where
  path : String
  items : List ErrorReportItem
  deriving DecidableEq, Repr

/-- `ReportsService.generateReport`: empty error list → empty path, no
file written; otherwise map the errors in order and write them once to
`reports/<taskId>-report.json`. -/
def generateReport (taskId : String) (rawErrors : List RawReportError) :
    Report × Option (String × List ErrorReportItem) :=
  if rawErrors = [] then (⟨"", []⟩, none)
  else
    let items := rawErrors.map mapError
    let filePath := "reports/" ++ taskId ++ "-report.json"
    (⟨filePath, items⟩, some (filePath, items))

/-! ## The reservation store and business rules
(`reservations.service.ts`) -/

/-- A persisted `Reservation` document.  The date fields hold the result
of `new Date(string)` (an Invalid Date is `none`). -/
structure Reservation where
  reservationId : String
  guestName : String
  status : String
  checkInDate : Option Int
  checkOutDate : Option Int
  deriving DecidableEq, Repr

/-- The reservation collection, in insertion order (the unique index on
`reservationId` holds for every store the pipeline builds). -/
abbrev ReservationStore := List Reservation

/-- `ReservationsService.findByReservationId` (`findOne` by key). -/
def findByReservationId (store : ReservationStore) (id : String) :
    Option Reservation :=
  store.find? (fun r => r.reservationId = id)

/-- `ReservationsService.upsert` (`findOneAndUpdate` with `upsert: true`):
update all non-key fields of the first match, or insert a new document. -/
def upsert (store : ReservationStore) (dto : ReservationRowDto) :
    ReservationStore :=
  match store with
  | [] => [⟨dto.reservationId, dto.guestName, dto.status,
            jsParseDate dto.checkInDate, jsParseDate dto.checkOutDate⟩]
  | r :: rest =>
    if r.reservationId = dto.reservationId then
      ⟨r.reservationId, dto.guestName, dto.status,
        jsParseDate dto.checkInDate, jsParseDate dto.checkOutDate⟩ :: rest
    else r :: upsert rest dto

/-- `ReservationsService.updateStatus` (`findOneAndUpdate` setting only
`status`): rewrites only the status of the first match. -/
def updateStatusByKey (store : ReservationStore) (id status : String) :
    ReservationStore :=
  match store with
  | [] => []
  | r :: rest =>
    if r.reservationId = id then { r with status := status } :: rest
    else r :: updateStatusByKey rest id status

/-- One observable operation against the reservation store. -/
inductive StoreOp where
  | findByResId (id : String)
  | upsertWrite (dto : ReservationRowDto)
  | statusWrite (id status : String)
  deriving DecidableEq, Repr

/-- Whether a store operation writes (mutates) the store. -/
def StoreOp.isWriteOp : StoreOp → Bool
  | .findByResId _ => false
  | .upsertWrite _ => true
  | .statusWrite _ _ => true

/-- `ReservationsService.processReservation`: cancelled/completed rows
update only an existing record (one read, then at most one status write);
every other status upserts.  Returns the new store, the boolean result
(`false` = skipped) and the trace of store operations performed. -/
def processReservation (store : ReservationStore) (dto : ReservationRowDto) :
    ReservationStore × Bool × List StoreOp :=
  if dto.status = statusCancelled ∨ dto.status = statusCompleted then
    match findByReservationId store dto.reservationId with
    | some _ =>
      (updateStatusByKey store dto.reservationId dto.status, true,
        [.findByResId dto.reservationId,
         .statusWrite dto.reservationId dto.status])
    | none => (store, false, [.findByResId dto.reservationId])
  else
    (upsert store dto, true, [.upsertWrite dto])

/-! ## Tasks, events and the orchestrator (`tasks.service.ts`,
`FileProcessor.process`) -/

/-- `TaskStatus` (`task.schema.ts`). -/
inductive TaskStatus where
  | PENDING
  | IN_PROGRESS
  | COMPLETED
  | FAILED
  deriving DecidableEq, Repr

/-- The task document fields the orchestrator reads and writes. -/
structure Task where
  filePath : String
  status : TaskStatus
  reportPath : String := ""
  deriving DecidableEq, Repr

/-- One WebSocket status event (`TasksGateway.emitStatusUpdate`),
timestamps elided. -/
structure StatusEvent where
  taskId : String
  status : TaskStatus
  reportPath : Option String := none
  deriving DecidableEq, Repr

/-- One WebSocket progress event (`TasksGateway.emitProgressUpdate`),
timestamps elided. -/
structure ProgressEvent where
  taskId : String
  processedRows : Nat
  errorCount : Nat
  deriving DecidableEq, Repr

/-- `PROGRESS_EMIT_INTERVAL` (`tasks.service.ts`). -/
def PROGRESS_EMIT_INTERVAL : Nat := 100

/-- One spreadsheet row: its 1-based worksheet row number and the five
cells read through `COLUMN_MAP` (reservation id, guest name, status,
check-in, check-out — columns 1–5). -/
structure Row where
  number : Nat
  reservationIdCell : CellValue
  guestNameCell : CellValue
  statusCell : CellValue
  checkInCell : CellValue
  checkOutCell : CellValue
  deriving DecidableEq, Repr

/-- `FileProcessor.mapRowToDto`. -/
def mapRowToDto (row : Row) : ReservationRowDto :=
  ⟨normalizeValue row.reservationIdCell,
   normalizeValue row.guestNameCell,
   normalizeValue row.statusCell,
   normalizeDate row.checkInCell,
   normalizeDate row.checkOutCell⟩

/-- The mutable state of one in-flight job execution: the reservation
store, the accumulated `rawErrors`, the duplicate tracker's
`seenReservationIds`, the `processedRows` counter, the progress events
emitted so far, the trace of store operations (tagged with the row number
that caused them) and the trace of `processReservation` calls. -/
structure ProcState where
  store : ReservationStore
  rawErrors : List RawReportError
  seen : List String
  processedRows : Nat
  progressEvents : List ProgressEvent
  storeOps : List (Nat × StoreOp)
  breCalls : List (Nat × ReservationRowDto)
  deriving Repr

/-- The initial per-job state over a given reservation store (the
duplicate tracker and error accumulator start empty on every attempt). -/
def initState (store : ReservationStore) : ProcState :=
  ⟨store, [], [], 0, [], [], []⟩

/-- `TasksService.emitProgress`: emits only on
`PROGRESS_EMIT_INTERVAL` boundaries. -/
def emitProgress (taskId : String) (st : ProcState) : ProcState :=
  if st.processedRows % PROGRESS_EMIT_INTERVAL = 0 then
    { st with progressEvents := st.progressEvents ++
        [⟨taskId, st.processedRows, st.rawErrors.length⟩] }
  else st

/-- An infrastructure-fault oracle: `fault n = some msg` means the store
layer throws `msg` while `processReservation` runs for the row numbered
`n` (before any of its operations complete); `none` means the store is
healthy for that row. -/
abbrev FaultOracle := Nat → Option String

/-- The body of the streaming loop of `FileProcessor.process` for one
data row: increment `processedRows`; map the row to a DTO; flag an
intra-file duplicate (before validation, and only for a non-empty key);
otherwise validate, record the mapped validation errors on failure;
otherwise add the key to the seen-set and run the business rules, where a
thrown infrastructure error is caught by the per-row handler and recorded
as an `UNKNOWN` error item.  Every path ends in one `emitProgress` call. -/
def stepRow (taskId : String) (fault : FaultOracle) (st : ProcState)
    (row : Row) : ProcState :=
  let st1 := { st with processedRows := st.processedRows + 1 }
  let dto := mapRowToDto row
  if dto.reservationId ≠ "" ∧ st1.seen.contains dto.reservationId then
    emitProgress taskId { st1 with rawErrors := st1.rawErrors ++
      [⟨row.number, .DUPLICATE, some dto.reservationId, none⟩] }
  else
    let ve := validateDto dto
    if ve ≠ [] then
      emitProgress taskId { st1 with rawErrors := st1.rawErrors ++
        (mapValidationErrors row.number ve) }
    else
      let st2 := { st1 with seen := st1.seen ++ [dto.reservationId] }
      match fault row.number with
      | some msg =>
        emitProgress taskId { st2 with rawErrors := st2.rawErrors ++
          [⟨row.number, .UNKNOWN, none, some msg⟩] }
      | none =>
        let res := processReservation st2.store dto
        emitProgress taskId
          { st2 with
            store := res.1
            storeOps := st2.storeOps ++ res.2.2.map (fun op => (row.number, op))
            breCalls := st2.breCalls ++ [(row.number, dto)] }

/-- The streaming loop over a list of data rows. -/
def runRows (taskId : String) (fault : FaultOracle) (st : ProcState)
    (rows : List Row) : ProcState :=
  rows.foldl (stepRow taskId fault) st

/-- The data rows of a workbook: the first row of each worksheet is the
header and is skipped. -/
def dataRows (worksheets : List (List Row)) : List Row :=
  (worksheets.map (fun w => w.drop 1)).flatten

/-- Everything observable about one completed job execution. -/
structure ProcessResult where
  task : Task
  resStore : ReservationStore
  statusEvents : List StatusEvent
  progressEvents : List ProgressEvent
  report : Report
  reportWrite : Option (String × List ErrorReportItem)
  rawErrors : List RawReportError
  storeOps : List (Nat × StoreOp)
  breCalls : List (Nat × ReservationRowDto)
  processedRows : Nat
  deriving Repr

/-- `FileProcessor.process` for a job whose task was found, over a
workbook given as worksheets of rows.  `streamFault = some k` means the
`for await` stream itself throws after yielding the first `k` data rows
(with `k = 0`: the file cannot be opened); the outer `catch` then records
the single synthetic file-level error, generates its report and applies
the `FAILED` transition.  `streamFault = none` is a stream read to
completion: the accumulated errors are reported and the `COMPLETED`
transition is applied.  Per-row infrastructure faults come from `fault`
and never escape the loop. -/
def runJob (taskId : String) (task : Task) (worksheets : List (List Row))
    (fault : FaultOracle) (streamFault : Option Nat)
    (store : ReservationStore) : ProcessResult :=
  let task1 : Task := { task with status := .IN_PROGRESS }
  let ev1 : List StatusEvent := [⟨taskId, .IN_PROGRESS, none⟩]
  let rows := dataRows worksheets
  match streamFault with
  | none =>
    let st := runRows taskId fault (initState store) rows
    let rep := generateReport taskId st.rawErrors
    { task := { task1 with status := .COMPLETED, reportPath := rep.1.path }
      resStore := st.store
      statusEvents := ev1 ++ [⟨taskId, .COMPLETED, some rep.1.path⟩]
      progressEvents := st.progressEvents
      report := rep.1
      reportWrite := rep.2
      rawErrors := st.rawErrors
      storeOps := st.storeOps
      breCalls := st.breCalls
      processedRows := st.processedRows }
  | some k =>
    let st := runRows taskId fault (initState store) (rows.take k)
    let rep := generateReport taskId
      [⟨0, .UNKNOWN, none, some "File processing failed"⟩]
    { task := { task1 with status := .FAILED, reportPath := rep.1.path }
      resStore := st.store
      statusEvents := ev1 ++ [⟨taskId, .FAILED, some rep.1.path⟩]
      progressEvents := st.progressEvents
      report := rep.1
      reportWrite := rep.2
      rawErrors := st.rawErrors
      storeOps := st.storeOps
      breCalls := st.breCalls
      processedRows := st.processedRows }

/-- The queue entry point (`process(job)`): the task is looked up first;
a missing task aborts the job without transitioning anything. -/
def processJob (taskId : String) (task? : Option Task)
    (worksheets : List (List Row)) (fault : FaultOracle)
    (streamFault : Option Nat) (store : ReservationStore) :
    Option ProcessResult :=
  task?.map fun task => runJob taskId task worksheets fault streamFault store

/-! ## Shared sample inputs (used by witnesses and counterexamples) -/

/-- A freshly created task document. -/
def sampleTask : Task := ⟨"uploads/booking.xlsx", .PENDING, ""⟩

/-- The header row of the sample workbook (always skipped). -/
def headerRow : Row :=
  ⟨1, .str "reservation_id", .str "guest_name", .str "status",
    .str "check_in_date", .str "check_out_date"⟩

/-- A fully valid pending row with a choosable number and key. -/
def validRow (n : Nat) (id : String) : Row :=
  ⟨n, .str id, .str "Jan Nowak", .str "oczekująca",
    .str "2024-05-01", .str "2024-05-07"⟩

/-- A row that fails validation (missing guest name). -/
def invalidRow (n : Nat) (id : String) : Row :=
  ⟨n, .str id, .str "", .str "oczekująca",
    .str "2024-05-01", .str "2024-05-07"⟩

/-- The healthy infrastructure oracle: the store never throws. -/
def noFault : FaultOracle := fun _ => none

/-- A fully valid row carrying a terminal (cancelled) status. -/
def cancelRow (n : Nat) (id : String) : Row :=
  ⟨n, .str id, .str "Jan Nowak", .str "anulowana",
    .str "2024-05-01", .str "2024-05-07"⟩

/-- A pre-existing stored reservation for key `R1`. -/
def storedRes : Reservation :=
  ⟨"R1", "Old Guest", "oczekująca", some 100, some 200⟩

/-- Whether an error item is a duplicate report for key `k`. -/
def isDupFor (k : String) (e : RawReportError) : Bool :=
  e.code = ReportErrorCode.DUPLICATE ∧ e.field = some k

/-- Whether a Business Rule Engine call carries key `k`. -/
def isCallFor (k : String) (c : Nat × ReservationRowDto) : Bool :=
  c.2.reservationId = k

/-! ## Helper lemmas -/

/-- Sanity check: Excel serial 45413 is 2024-05-01 (as in the test
suite), an ISO calendar date parses to its UTC midnight, and a non-date
string is an Invalid Date. -/
theorem date_model_samples :
    formatDate (excelDateToJSDate 45413) = "2024-05-01" ∧
    jsParseDate "2024-05-07" = some (19850 * msPerDay) ∧
    jsParseDate "not-a-date" = none := by
  refine ⟨by decide, by decide, by decide⟩

@[simp]
theorem emitProgress_store (t : String) (st : ProcState) :
    (emitProgress t st).store = st.store := by
  unfold emitProgress; split <;> rfl

@[simp]
theorem emitProgress_rawErrors (t : String) (st : ProcState) :
    (emitProgress t st).rawErrors = st.rawErrors := by
  unfold emitProgress; split <;> rfl

@[simp]
theorem emitProgress_seen (t : String) (st : ProcState) :
    (emitProgress t st).seen = st.seen := by
  unfold emitProgress; split <;> rfl

@[simp]
theorem emitProgress_storeOps (t : String) (st : ProcState) :
    (emitProgress t st).storeOps = st.storeOps := by
  unfold emitProgress; split <;> rfl

@[simp]
theorem emitProgress_breCalls (t : String) (st : ProcState) :
    (emitProgress t st).breCalls = st.breCalls := by
  unfold emitProgress; split <;> rfl

@[simp]
theorem emitProgress_processedRows (t : String) (st : ProcState) :
    (emitProgress t st).processedRows = st.processedRows := by
  unfold emitProgress; split <;> rfl

/-- The duplicate branch of the loop body. -/
theorem stepRow_eq_dup (taskId : String) (fault : FaultOracle)
    (st : ProcState) (row : Row)
    (h1 : (mapRowToDto row).reservationId ≠ "")
    (h2 : (mapRowToDto row).reservationId ∈ st.seen) :
    stepRow taskId fault st row = emitProgress taskId
      { st with
        processedRows := st.processedRows + 1
        rawErrors := st.rawErrors ++
          [⟨row.number, .DUPLICATE, some (mapRowToDto row).reservationId,
            none⟩] } := by
  unfold stepRow
  simp [h1, h2]

/-- The validation-failure branch of the loop body. -/
theorem stepRow_eq_invalid (taskId : String) (fault : FaultOracle)
    (st : ProcState) (row : Row)
    (hdup : (mapRowToDto row).reservationId = "" ∨
      (mapRowToDto row).reservationId ∉ st.seen)
    (hv : validateDto (mapRowToDto row) ≠ []) :
    stepRow taskId fault st row = emitProgress taskId
      { st with
        processedRows := st.processedRows + 1
        rawErrors := st.rawErrors ++
          mapValidationErrors row.number (validateDto (mapRowToDto row)) } := by
  unfold stepRow
  rcases hdup with h | h <;> simp [h, hv]

/-- The caught-infrastructure-fault branch of the loop body. -/
theorem stepRow_eq_fault (taskId : String) (fault : FaultOracle)
    (st : ProcState) (row : Row) (msg : String)
    (hdup : (mapRowToDto row).reservationId = "" ∨
      (mapRowToDto row).reservationId ∉ st.seen)
    (hv : validateDto (mapRowToDto row) = [])
    (hf : fault row.number = some msg) :
    stepRow taskId fault st row = emitProgress taskId
      { st with
        processedRows := st.processedRows + 1
        seen := st.seen ++ [(mapRowToDto row).reservationId]
        rawErrors := st.rawErrors ++
          [⟨row.number, .UNKNOWN, none, some msg⟩] } := by
  unfold stepRow
  rcases hdup with h | h <;> simp [h, hv, hf]

/-- The valid-row branch of the loop body. -/
theorem stepRow_eq_valid (taskId : String) (fault : FaultOracle)
    (st : ProcState) (row : Row)
    (hdup : (mapRowToDto row).reservationId = "" ∨
      (mapRowToDto row).reservationId ∉ st.seen)
    (hv : validateDto (mapRowToDto row) = [])
    (hf : fault row.number = none) :
    stepRow taskId fault st row = emitProgress taskId
      { st with
        processedRows := st.processedRows + 1
        seen := st.seen ++ [(mapRowToDto row).reservationId]
        store := (processReservation st.store (mapRowToDto row)).1
        storeOps := st.storeOps ++
          ((processReservation st.store (mapRowToDto row)).2.2.map
            (fun op => (row.number, op)))
        breCalls := st.breCalls ++ [(row.number, mapRowToDto row)] } := by
  unfold stepRow
  rcases hdup with h | h <;> simp [h, hv, hf]

@[simp]
theorem runRows_nil (taskId : String) (fault : FaultOracle) (st : ProcState) :
    runRows taskId fault st [] = st := rfl

@[simp]
theorem runRows_cons (taskId : String) (fault : FaultOracle) (st : ProcState)
    (r : Row) (rows : List Row) :
    runRows taskId fault st (r :: rows) =
      runRows taskId fault (stepRow taskId fault st r) rows := rfl

theorem runRows_append (taskId : String) (fault : FaultOracle) (st : ProcState)
    (l1 l2 : List Row) :
    runRows taskId fault st (l1 ++ l2) =
      runRows taskId fault (runRows taskId fault st l1) l2 := by
  unfold runRows
  exact List.foldl_append ..

/-- A successful `find?` splits the list at the first hit. -/
theorem find_eq_some_split {α : Type} (p : α → Bool) (l : List α) (a : α)
    (h : l.find? p = some a) :
    ∃ pre post, l = pre ++ a :: post ∧ (∀ x ∈ pre, p x = false) ∧
      p a = true := by
  induction l with
  | nil => simp at h
  | cons x xs ih =>
    by_cases hx : p x
    · rw [List.find?_cons_of_pos _ hx] at h
      obtain rfl : x = a := by simpa using h
      exact ⟨[], xs, rfl, by simp, hx⟩
    · rw [List.find?_cons_of_neg _ (by simpa using hx)] at h
      obtain ⟨pre, post, rfl, hpre, hp⟩ := ih h
      refine ⟨x :: pre, post, rfl, ?_, hp⟩
      intro y hy
      rcases List.mem_cons.mp hy with rfl | hy
      · simpa using hx
      · exact hpre y hy

/-- `updateStatusByKey` rewrites exactly the first record holding the
key, and only its status field. -/
theorem updateStatusByKey_split (pre post : List Reservation)
    (r0 : Reservation) (id s : String)
    (hpre : ∀ x ∈ pre, x.reservationId ≠ id)
    (hr : r0.reservationId = id) :
    updateStatusByKey (pre ++ r0 :: post) id s =
      pre ++ { r0 with status := s } :: post := by
  induction pre with
  | nil => simp [updateStatusByKey, hr]
  | cons x xs ih =>
    have hx : x.reservationId ≠ id := hpre x (by simp)
    simp only [List.cons_append, updateStatusByKey, if_neg hx]
    exact congrArg (fun l => x :: l) (ih (fun y hy => hpre y (by simp [hy])))

theorem mapValidationErrors_append (n : Nat) (a b : List ValidationError) :
    mapValidationErrors n (a ++ b) =
      mapValidationErrors n a ++ mapValidationErrors n b := by
  simp [mapValidationErrors]

/-- Validation errors never map to the duplicate code. -/
theorem mapConstraintToErrorCode_ne_dup (e : ValidationError) :
    mapConstraintToErrorCode e ≠ .DUPLICATE := by
  unfold mapConstraintToErrorCode
  split_ifs <;> simp

/-- Properties whose failed constraints do not include the check-out
comparison never map to its code. -/
theorem mapConstraintToErrorCode_ne_checkout (p : String)
    (cs : List ConstraintKind)
    (h : ConstraintKind.isCheckOutAfterCheckIn ∉ cs) :
    mapConstraintToErrorCode ⟨p, cs⟩ ≠ .CHECKOUT_BEFORE_CHECKIN := by
  unfold mapConstraintToErrorCode
  split_ifs <;> simp_all

/-- Filtering mapped errors by a property name other than the block's
yields nothing. -/
theorem filter_field_propertyErrors_ne (n : Nat) (p q : String)
    (cs : List ConstraintKind) (hpq : q ≠ p) :
    (mapValidationErrors n (propertyErrors q cs)).filter
      (fun e => e.field = some p) = [] := by
  unfold propertyErrors mapValidationErrors
  split <;> simp [hpq]

/-- Filtering mapped errors by the block's own property name yields
exactly its one mapped item. -/
theorem filter_field_propertyErrors_eq (n : Nat) (p : String)
    (cs : List ConstraintKind) (h : cs ≠ []) :
    (mapValidationErrors n (propertyErrors p cs)).filter
      (fun e => e.field = some p) =
      [⟨n, mapConstraintToErrorCode ⟨p, cs⟩, some p, none⟩] := by
  unfold propertyErrors mapValidationErrors
  split
  · simp_all
  · simp

/-- A property block whose mapped code is not the check-out comparison
code contributes nothing to the filter by that code. -/
theorem filter_code_propertyErrors_ne (n : Nat) (p : String)
    (cs : List ConstraintKind)
    (hne : mapConstraintToErrorCode ⟨p, cs⟩ ≠ .CHECKOUT_BEFORE_CHECKIN) :
    (mapValidationErrors n (propertyErrors p cs)).filter
      (fun e => e.code = ReportErrorCode.CHECKOUT_BEFORE_CHECKIN) = [] := by
  unfold propertyErrors mapValidationErrors
  split
  · simp
  · simp [hne]

/-- The ISO calendar-date format check rejects the empty string. -/
theorem isDateStringB_ne_empty (s : String) (h : isDateStringB s = true) :
    s ≠ "" := by
  intro hs
  subst hs
  exact absurd h (by decide)

/-- Report rendering preserves the row number. -/
theorem mapError_row (e : RawReportError) : (mapError e).row = e.row := by
  obtain ⟨row, code, field, message⟩ := e
  cases code <;> rfl

/-- One loop step only appends error items, all carrying the current
row's number. -/
theorem stepRow_errors_decomp (taskId : String) (fault : FaultOracle)
    (st : ProcState) (r : Row) :
    ∃ E, (stepRow taskId fault st r).rawErrors = st.rawErrors ++ E ∧
      ∀ e ∈ E, e.row = r.number := by
  by_cases hdup : ((mapRowToDto r).reservationId ≠ "" ∧
      (mapRowToDto r).reservationId ∈ st.seen)
  · rw [stepRow_eq_dup taskId fault st r hdup.1 hdup.2]
    refine ⟨[⟨r.number, .DUPLICATE, some (mapRowToDto r).reservationId,
      none⟩], by simp, ?_⟩
    intro e he
    rw [List.mem_singleton] at he
    rw [he]
  · have hd : (mapRowToDto r).reservationId = "" ∨
        (mapRowToDto r).reservationId ∉ st.seen := by
      by_cases he : (mapRowToDto r).reservationId = ""
      · exact Or.inl he
      · exact Or.inr (fun hm => hdup ⟨he, hm⟩)
    by_cases hv : validateDto (mapRowToDto r) = []
    · cases hf : fault r.number with
      | none =>
        rw [stepRow_eq_valid taskId fault st r hd hv hf]
        exact ⟨[], by simp, by simp⟩
      | some msg =>
        rw [stepRow_eq_fault taskId fault st r msg hd hv hf]
        refine ⟨[⟨r.number, .UNKNOWN, none, some msg⟩], by simp, ?_⟩
        intro e he
        rw [List.mem_singleton] at he
        rw [he]
    · rw [stepRow_eq_invalid taskId fault st r hd hv]
      refine ⟨mapValidationErrors r.number (validateDto (mapRowToDto r)),
        by simp, ?_⟩
      intro e he
      unfold mapValidationErrors at he
      obtain ⟨a, _, rfl⟩ := List.mem_map.mp he
      rfl

/-- A list of identical numbers is sorted. -/
theorem sorted_of_all_eq (l : List Nat) (c : Nat) (h : ∀ x ∈ l, x = c) :
    l.Sorted (· ≤ ·) := by
  induction l with
  | nil => simp
  | cons a as ih =>
    rw [List.sorted_cons]
    refine ⟨fun b hb => ?_, ih (fun x hx => h x (by simp [hx]))⟩
    rw [h a (by simp), h b (by simp [hb])]

/-- Monotone row numbers in the stream keep the accumulated error list
sorted by row. -/
theorem runRows_errors_sorted (taskId : String) (fault : FaultOracle)
    (rows : List Row) (st : ProcState)
    (hsorted : (st.rawErrors.map RawReportError.row).Sorted (· ≤ ·))
    (hbound : ∀ e ∈ st.rawErrors, ∀ r ∈ rows, e.row ≤ r.number)
    (hrows : ((rows.map Row.number)).Sorted (· ≤ ·)) :
    ((runRows taskId fault st rows).rawErrors.map
      RawReportError.row).Sorted (· ≤ ·) := by
  induction rows generalizing st with
  | nil => simpa using hsorted
  | cons r rest ih =>
    obtain ⟨E, hE, hErow⟩ := stepRow_errors_decomp taskId fault st r
    rw [runRows_cons]
    rw [List.map_cons, List.sorted_cons] at hrows
    apply ih
    · rw [hE, List.map_append]
      rw [show ∀ l l' : List Nat, (l ++ l').Sorted (· ≤ ·) ↔
          l.Sorted (· ≤ ·) ∧ l'.Sorted (· ≤ ·) ∧ ∀ a ∈ l, ∀ b ∈ l', a ≤ b
        from fun l l' => List.pairwise_append]
      refine ⟨hsorted, sorted_of_all_eq _ r.number
        (fun x hx => ?_), fun a ha b hb => ?_⟩
      · obtain ⟨e, he, rfl⟩ := List.mem_map.mp hx
        exact hErow e he
      · obtain ⟨e, he, rfl⟩ := List.mem_map.mp ha
        obtain ⟨e', he', rfl⟩ := List.mem_map.mp hb
        rw [hErow e' he']
        exact hbound e he r (by simp)
    · intro e he r' hr'
      rw [hE] at he
      rcases List.mem_append.mp he with he | he
      · exact hbound e he r' (by simp [hr'])
      · rw [hErow e he]
        exact hrows.1 r'.number (List.mem_map.mpr ⟨r', hr', rfl⟩)
    · exact hrows.2

/-- Mapped validation errors are never duplicate reports. -/
theorem filter_dup_mapValidationErrors (k : String) (n : Nat)
    (ve : List ValidationError) :
    (mapValidationErrors n ve).filter (isDupFor k) = [] := by
  rw [List.filter_eq_nil_iff]
  intro e he
  unfold mapValidationErrors at he
  obtain ⟨a, _, rfl⟩ := List.mem_map.mp he
  simp [isDupFor, mapConstraintToErrorCode_ne_dup]

/-- A loop step over a row whose key differs from `k` neither reports a
duplicate for `k`, nor calls the Business Rule Engine for `k`, nor
changes whether `k` has been seen. -/
theorem stepRow_keyFree (taskId : String) (fault : FaultOracle)
    (st : ProcState) (r : Row) (k : String)
    (hk : (mapRowToDto r).reservationId ≠ k) :
    ((stepRow taskId fault st r).rawErrors.filter (isDupFor k) =
      st.rawErrors.filter (isDupFor k)) ∧
    ((stepRow taskId fault st r).breCalls.filter (isCallFor k) =
      st.breCalls.filter (isCallFor k)) ∧
    (k ∈ (stepRow taskId fault st r).seen ↔ k ∈ st.seen) := by
  have hmem : ∀ l : List String, k ∈ l ++ [(mapRowToDto r).reservationId] ↔
      k ∈ l := by
    intro l
    rw [List.mem_append, List.mem_singleton]
    constructor
    · rintro (h | h)
      · exact h
      · exact absurd h.symm hk
    · exact Or.inl
  by_cases hdup : ((mapRowToDto r).reservationId ≠ "" ∧
      (mapRowToDto r).reservationId ∈ st.seen)
  · rw [stepRow_eq_dup taskId fault st r hdup.1 hdup.2]
    refine ⟨?_, by simp, by simp⟩
    simp [List.filter_append, isDupFor, hk]
  · have hd : (mapRowToDto r).reservationId = "" ∨
        (mapRowToDto r).reservationId ∉ st.seen := by
      by_cases he : (mapRowToDto r).reservationId = ""
      · exact Or.inl he
      · exact Or.inr (fun hm => hdup ⟨he, hm⟩)
    by_cases hv : validateDto (mapRowToDto r) = []
    · cases hf : fault r.number with
      | none =>
        rw [stepRow_eq_valid taskId fault st r hd hv hf]
        refine ⟨by simp, ?_, by simpa using hmem st.seen⟩
        simp only [emitProgress_breCalls, List.filter_append]
        have : (isCallFor k (r.number, mapRowToDto r)) = false := by
          simp [isCallFor, hk]
        simp [this]
      | some msg =>
        rw [stepRow_eq_fault taskId fault st r msg hd hv hf]
        refine ⟨?_, by simp, by simpa using hmem st.seen⟩
        simp [List.filter_append, isDupFor]
    · rw [stepRow_eq_invalid taskId fault st r hd hv]
      refine ⟨?_, by simp, by simp⟩
      simp [List.filter_append, filter_dup_mapValidationErrors]

/-- Running the loop over rows none of which carries key `k` preserves
the duplicate reports for `k`, the Business Rule Engine calls for `k`,
and whether `k` has been seen. -/
theorem runRows_keyFree (taskId : String) (fault : FaultOracle)
    (rows : List Row) (st : ProcState) (k : String)
    (hk : ∀ r ∈ rows, (mapRowToDto r).reservationId ≠ k) :
    ((runRows taskId fault st rows).rawErrors.filter (isDupFor k) =
      st.rawErrors.filter (isDupFor k)) ∧
    ((runRows taskId fault st rows).breCalls.filter (isCallFor k) =
      st.breCalls.filter (isCallFor k)) ∧
    (k ∈ (runRows taskId fault st rows).seen ↔ k ∈ st.seen) := by
  induction rows generalizing st with
  | nil => simp
  | cons r rest ih =>
    rw [runRows_cons]
    have hstep := stepRow_keyFree taskId fault st r k (hk r (by simp))
    have hrest := ih (stepRow taskId fault st r)
      (fun r' hr' => hk r' (by simp [hr']))
    exact ⟨hrest.1.trans hstep.1, hrest.2.1.trans hstep.2.1,
      hrest.2.2.trans hstep.2.2⟩

/-! ## Claim theorems -/

/-- Claim C9, counterexample: the claim states that a boolean cell is
stringified and a rich-text cell yields the concatenation of its runs for
every raw cell value, but in a date column `normalizeDate` maps both to
the empty string (while the general normalizer behaves as claimed). -/
theorem c9_counterexample :
    normalizeDate (CellValue.boolv true) = "" ∧ ("" : String) ≠ "true" ∧
    normalizeDate (CellValue.richText ["2024-", "05-01"]) = "" ∧
    normalizeValue (CellValue.boolv true) = "true" ∧
    normalizeValue (CellValue.richText ["2024-", "05-01"]) = "2024-05-01" := by
  refine ⟨rfl, by decide, rfl, rfl, by decide⟩

/-- Claim C9 (amended): cell normalization is total (both normalizers are
total functions) and behaves as claimed — null/undefined to the empty
string, strings trimmed, numbers/booleans stringified, native dates
formatted as `YYYY-MM-DD`, rich text concatenated, any other shape to the
empty string; in a date column a number is first converted through the
spreadsheet epoch 1899-12-30, and booleans and rich text fall to the
empty string rather than being stringified/concatenated. -/
theorem c9_amended_normalization_cases :
    (normalizeValue CellValue.nullv = "") ∧
    (∀ s, normalizeValue (CellValue.str s) = jsTrim s) ∧
    (∀ n, normalizeValue (CellValue.num n) = toString n) ∧
    (∀ b, normalizeValue (CellValue.boolv b) =
      if b then "true" else "false") ∧
    (∀ ms, normalizeValue (CellValue.date ms) = formatDate ms) ∧
    (∀ runs, normalizeValue (CellValue.richText runs) = String.join runs) ∧
    (normalizeValue CellValue.other = "") ∧
    (normalizeDate CellValue.nullv = "") ∧
    (∀ ms, normalizeDate (CellValue.date ms) = formatDate ms) ∧
    (∀ s, normalizeDate (CellValue.str s) = jsTrim s) ∧
    (∀ n, normalizeDate (CellValue.num n) =
      formatDate (daysFromCivil 1899 12 30 * msPerDay + n * msPerDay)) ∧
    (∀ b, normalizeDate (CellValue.boolv b) = "") ∧
    (∀ runs, normalizeDate (CellValue.richText runs) = "") ∧
    (normalizeDate CellValue.other = "") :=
  ⟨rfl, fun _ => rfl, fun _ => rfl, fun b => by cases b <;> rfl, fun _ => rfl,
    fun _ => rfl, rfl, rfl, fun _ => rfl, fun _ => rfl, fun _ => rfl,
    fun _ => rfl, fun _ => rfl, rfl⟩

/-- Claim C1: a job whose stream is read to completion ends with the
`COMPLETED` transition and a final status event, whatever row-level
errors (or caught per-row infrastructure faults) occurred; only an
exception escaping the streaming loop itself (`streamFault = some k`)
yields `FAILED`, and then one file-level error item (row 0, code unknown)
is recorded, its report artifact is generated and written, and the
`FAILED` transition and final status event are applied. -/
theorem c1_terminal_transitions (taskId : String) (task : Task)
    (ws : List (List Row)) (fault : FaultOracle) (store : ReservationStore) :
    ((runJob taskId task ws fault none store).task.status = .COMPLETED ∧
     (runJob taskId task ws fault none store).statusEvents =
       [⟨taskId, .IN_PROGRESS, none⟩,
        ⟨taskId, .COMPLETED,
          some (runJob taskId task ws fault none store).report.path⟩]) ∧
    ∀ k, (runJob taskId task ws fault (some k) store).task.status = .FAILED ∧
      (runJob taskId task ws fault (some k) store).report =
        ⟨"reports/" ++ taskId ++ "-report.json",
         [⟨0, "File processing failed", "Verify row data"⟩]⟩ ∧
      (runJob taskId task ws fault (some k) store).reportWrite =
        some ("reports/" ++ taskId ++ "-report.json",
          [⟨0, "File processing failed", "Verify row data"⟩]) ∧
      (runJob taskId task ws fault (some k) store).statusEvents =
        [⟨taskId, .IN_PROGRESS, none⟩,
         ⟨taskId, .FAILED, some ("reports/" ++ taskId ++ "-report.json")⟩] := by
  refine ⟨⟨?_, ?_⟩, fun k => ⟨?_, ?_, ?_, ?_⟩⟩ <;>
    simp [runJob, generateReport, mapError]

/-- Claim C10: when the stream throws after some rows already produced
row-level error items, the accumulated items are discarded — the report
generated for the `FAILED` task contains exactly the one synthetic item
(row 0, "File processing failed"), for every workbook and fault
pattern. -/
theorem c10_failure_report_is_singleton (taskId : String) (task : Task)
    (ws : List (List Row)) (fault : FaultOracle) (store : ReservationStore)
    (k : Nat) :
    (runJob taskId task ws fault (some k) store).report.items =
      [⟨0, "File processing failed", "Verify row data"⟩] ∧
    (runJob taskId task ws fault (some k) store).report.items.length = 1 ∧
    (runJob taskId task ws fault (some k) store).reportWrite =
      some ((runJob taskId task ws fault (some k) store).report.path,
        [⟨0, "File processing failed", "Verify row data"⟩]) := by
  refine ⟨?_, ?_, ?_⟩ <;> simp [runJob, generateReport, mapError]

/-- Claim C5: a valid row with a terminal status (cancelled/completed)
whose key has no stored record performs only the lookup — zero store
writes, the store unchanged, the row reported as skipped (`false`) — and
at the pipeline level records no error item. -/
theorem c5_terminal_status_without_record_skips :
    (∀ (store : ReservationStore) (dto : ReservationRowDto),
      (dto.status = statusCancelled ∨ dto.status = statusCompleted) →
      findByReservationId store dto.reservationId = none →
      processReservation store dto =
        (store, false, [.findByResId dto.reservationId]) ∧
      (StoreOp.findByResId dto.reservationId).isWriteOp = false) ∧
    (∀ (taskId : String) (fault : FaultOracle) (st : ProcState) (r : Row),
      ((mapRowToDto r).reservationId = "" ∨
        (mapRowToDto r).reservationId ∉ st.seen) →
      validateDto (mapRowToDto r) = [] →
      fault r.number = none →
      ((mapRowToDto r).status = statusCancelled ∨
        (mapRowToDto r).status = statusCompleted) →
      findByReservationId st.store (mapRowToDto r).reservationId = none →
      (stepRow taskId fault st r).rawErrors = st.rawErrors ∧
      (stepRow taskId fault st r).store = st.store ∧
      (stepRow taskId fault st r).storeOps = st.storeOps ++
        [(r.number, .findByResId (mapRowToDto r).reservationId)]) := by
  have base : ∀ (store : ReservationStore) (dto : ReservationRowDto),
      (dto.status = statusCancelled ∨ dto.status = statusCompleted) →
      findByReservationId store dto.reservationId = none →
      processReservation store dto =
        (store, false, [.findByResId dto.reservationId]) := by
    intro store dto hst hfind
    simp [processReservation, hst, hfind]
  refine ⟨fun store dto hst hfind => ⟨base store dto hst hfind, rfl⟩,
    fun taskId fault st r hdup hv hf hst hfind => ?_⟩
  rw [stepRow_eq_valid taskId fault st r hdup hv hf]
  rw [base st.store (mapRowToDto r) hst hfind]
  simp

/-- Claim C6: a valid row with a terminal status whose key does exist in
the store performs exactly one lookup followed by exactly one write, and
that write is status-only: the stored record's guest name, check-in date,
check-out date (and key) are unchanged, and no other record is touched. -/
theorem c6_terminal_status_updates_status_only (store : ReservationStore)
    (dto : ReservationRowDto) (r0 : Reservation)
    (hst : dto.status = statusCancelled ∨ dto.status = statusCompleted)
    (hfind : findByReservationId store dto.reservationId = some r0) :
    processReservation store dto =
      (updateStatusByKey store dto.reservationId dto.status, true,
        [.findByResId dto.reservationId,
         .statusWrite dto.reservationId dto.status]) ∧
    (([StoreOp.findByResId dto.reservationId,
       StoreOp.statusWrite dto.reservationId dto.status].filter
        StoreOp.isWriteOp).length = 1) ∧
    ∃ pre post, store = pre ++ r0 :: post ∧
      (∀ x ∈ pre, x.reservationId ≠ dto.reservationId) ∧
      updateStatusByKey store dto.reservationId dto.status =
        pre ++ { r0 with status := dto.status } :: post ∧
      ({ r0 with status := dto.status }).guestName = r0.guestName ∧
      ({ r0 with status := dto.status }).checkInDate = r0.checkInDate ∧
      ({ r0 with status := dto.status }).checkOutDate = r0.checkOutDate ∧
      ({ r0 with status := dto.status }).reservationId = r0.reservationId := by
  refine ⟨by simp [processReservation, hst, hfind], by simp [StoreOp.isWriteOp], ?_⟩
  obtain ⟨pre, post, rfl, hpre, hp⟩ :=
    find_eq_some_split _ store r0 hfind
  have hr : r0.reservationId = dto.reservationId := by simpa using hp
  refine ⟨pre, post, rfl, ?_, ?_, rfl, rfl, rfl, rfl⟩
  · intro x hx
    have := hpre x hx
    simpa using this
  · exact updateStatusByKey_split pre post r0 _ _
      (fun x hx => by simpa using hpre x hx) hr

/-- Witness for C5: instantiated with a cancelled row whose key `R1` is
absent from an empty store. -/
theorem c5_witness :
    processReservation [] (mapRowToDto (cancelRow 2 "R1")) =
      ([], false, [.findByResId "R1"]) ∧
    (stepRow "t1" noFault (initState []) (cancelRow 2 "R1")).rawErrors = [] ∧
    (stepRow "t1" noFault (initState []) (cancelRow 2 "R1")).store = [] ∧
    (stepRow "t1" noFault (initState []) (cancelRow 2 "R1")).storeOps =
      [(2, .findByResId "R1")] := by
  have h1 := c5_terminal_status_without_record_skips.1 []
    (mapRowToDto (cancelRow 2 "R1")) (Or.inl (by decide)) (by decide)
  have h2 := c5_terminal_status_without_record_skips.2 "t1" noFault
    (initState []) (cancelRow 2 "R1") (Or.inr (by decide)) (by decide) rfl
    (Or.inl (by decide)) (by decide)
  refine ⟨?_, by simpa [initState] using h2.1, by simpa [initState] using h2.2.1, ?_⟩
  · have := h1.1
    simpa using this
  · have := h2.2.2
    simpa [initState] using this

/-- Claim C3, counterexample: an infrastructure error thrown by the
store while persisting a valid row does not propagate to the queue — the
per-row `catch` records it as a row-level `UNKNOWN` Error Item, the job
continues and the task still ends `COMPLETED`, and the error even appears
in the report artifact. -/
theorem c3_counterexample :
    (runJob "t1" sampleTask [[headerRow, validRow 2 "R1"]]
      (fun _ => some "MongoNetworkError: connection refused") none
      []).rawErrors =
      [⟨2, .UNKNOWN, none, some "MongoNetworkError: connection refused"⟩] ∧
    (runJob "t1" sampleTask [[headerRow, validRow 2 "R1"]]
      (fun _ => some "MongoNetworkError: connection refused") none
      []).task.status = .COMPLETED ∧
    (runJob "t1" sampleTask [[headerRow, validRow 2 "R1"]]
      (fun _ => some "MongoNetworkError: connection refused") none
      []).report.items =
      [⟨2, "MongoNetworkError: connection refused", "Verify row data"⟩] := by
  refine ⟨by decide, by decide, by decide⟩

/-- Claim C3 (amended): an infrastructure error thrown while persisting a
row is caught by the per-row handler — it is recorded as a row-level
Error Item with code unknown carrying the error's message, the store is
left as it was, no store operation is traced for the row, and processing
continues so that the job still reaches `COMPLETED`; it does not
propagate out of the job to the Queue collaborator. -/
theorem c3_amended_infra_errors_swallowed :
    (∀ (taskId : String) (fault : FaultOracle) (st : ProcState) (r : Row)
      (msg : String),
      ((mapRowToDto r).reservationId = "" ∨
        (mapRowToDto r).reservationId ∉ st.seen) →
      validateDto (mapRowToDto r) = [] →
      fault r.number = some msg →
      (stepRow taskId fault st r).rawErrors =
        st.rawErrors ++ [⟨r.number, .UNKNOWN, none, some msg⟩] ∧
      (stepRow taskId fault st r).store = st.store ∧
      (stepRow taskId fault st r).storeOps = st.storeOps) ∧
    (∀ (taskId : String) (task : Task) (ws : List (List Row))
      (fault : FaultOracle) (store : ReservationStore),
      (runJob taskId task ws fault none store).task.status = .COMPLETED) := by
  constructor
  · intro taskId fault st r msg hdup hv hf
    rw [stepRow_eq_fault taskId fault st r msg hdup hv hf]
    simp
  · intro taskId task ws fault store
    simp [runJob]

/-- Witness for C3's amended theorem: a store fault at the single valid
row of a workbook. -/
theorem c3_witness :
    (stepRow "t1" (fun _ => some "redis down") (initState [])
      (validRow 2 "R1")).rawErrors =
      [⟨2, .UNKNOWN, none, some "redis down"⟩] ∧
    (stepRow "t1" (fun _ => some "redis down") (initState [])
      (validRow 2 "R1")).store = [] ∧
    (runJob "t1" sampleTask [[headerRow, validRow 2 "R1"]]
      (fun _ => some "redis down") none []).task.status = .COMPLETED := by
  have h := c3_amended_infra_errors_swallowed
  have h1 := h.1 "t1" (fun _ => some "redis down") (initState [])
    (validRow 2 "R1") "redis down" (Or.inr (by decide)) (by decide) rfl
  exact ⟨by simpa [initState] using h1.1, by simpa [initState] using h1.2.1,
    h.2 "t1" sampleTask [[headerRow, validRow 2 "R1"]]
      (fun _ => some "redis down") []⟩

/-- Claim C4, counterexample: a missing (empty) status yields the code
`INVALID_STATUS`, and a missing check-in or check-out date yields
`INVALID_DATE` — not `MISSING_FIELD` as the claim states (the `isEnum`
and `isDateString` checks also fail on the empty string and take
precedence in `mapConstraintToErrorCode`). -/
theorem c4_counterexample :
    mapValidationErrors 2
      (validateDto ⟨"R1", "Jan Nowak", "", "2024-05-01", "2024-05-07"⟩) =
      [⟨2, .INVALID_STATUS, some "status", none⟩] ∧
    ReportErrorCode.INVALID_STATUS ≠ ReportErrorCode.MISSING_FIELD ∧
    mapValidationErrors 2
      (validateDto ⟨"R1", "Jan Nowak", "oczekująca", "", "2024-05-07"⟩) =
      [⟨2, .INVALID_DATE, some "checkInDate", none⟩] ∧
    mapValidationErrors 2
      (validateDto ⟨"R1", "Jan Nowak", "oczekująca", "2024-05-01", ""⟩) =
      [⟨2, .INVALID_DATE, some "checkOutDate", none⟩] := by
  refine ⟨by decide, by decide, by decide, by decide⟩

/-- Claim C4 (amended): for a missing reservation key or guest name the
Error Item produced for that field has code missing-field; for a missing
status it has code invalid-status and for a missing check-in or check-out
date it has code invalid-date (the enum/date-format constraints also fail
on the empty string and take precedence); in every case a row that fails
validation causes no Record Store operation at all. -/
theorem c4_amended_missing_field_codes :
    (∀ (dto : ReservationRowDto) (n : Nat), dto.reservationId = "" →
      (mapValidationErrors n (validateDto dto)).filter
        (fun e => e.field = some "reservationId") =
        [⟨n, .MISSING_FIELD, some "reservationId", none⟩]) ∧
    (∀ (dto : ReservationRowDto) (n : Nat), dto.guestName = "" →
      (mapValidationErrors n (validateDto dto)).filter
        (fun e => e.field = some "guestName") =
        [⟨n, .MISSING_FIELD, some "guestName", none⟩]) ∧
    (∀ (dto : ReservationRowDto) (n : Nat), dto.status = "" →
      (mapValidationErrors n (validateDto dto)).filter
        (fun e => e.field = some "status") =
        [⟨n, .INVALID_STATUS, some "status", none⟩]) ∧
    (∀ (dto : ReservationRowDto) (n : Nat), dto.checkInDate = "" →
      (mapValidationErrors n (validateDto dto)).filter
        (fun e => e.field = some "checkInDate") =
        [⟨n, .INVALID_DATE, some "checkInDate", none⟩]) ∧
    (∀ (dto : ReservationRowDto) (n : Nat), dto.checkOutDate = "" →
      (mapValidationErrors n (validateDto dto)).filter
        (fun e => e.field = some "checkOutDate") =
        [⟨n, .INVALID_DATE, some "checkOutDate", none⟩]) ∧
    (∀ (taskId : String) (fault : FaultOracle) (st : ProcState) (r : Row),
      validateDto (mapRowToDto r) ≠ [] →
      (stepRow taskId fault st r).store = st.store ∧
      (stepRow taskId fault st r).storeOps = st.storeOps ∧
      (stepRow taskId fault st r).breCalls = st.breCalls) := by
  have e2 : (if isNotEmptyB "" then ([] : List ConstraintKind)
      else [.isNotEmpty]) = [.isNotEmpty] := by decide
  have e1 : (if isEnumStatusB "" then ([] : List ConstraintKind)
      else [.isEnum]) = [.isEnum] := by decide
  have e3 : (if isDateStringB "" then ([] : List ConstraintKind)
      else [.isDateString]) = [.isDateString] := by decide
  refine ⟨?_, ?_, ?_, ?_, ?_, ?_⟩
  · intro dto n h
    unfold validateDto
    rw [h, e2]
    rw [mapValidationErrors_append, mapValidationErrors_append,
        mapValidationErrors_append, mapValidationErrors_append,
        List.filter_append, List.filter_append, List.filter_append,
        List.filter_append]
    rw [filter_field_propertyErrors_ne n "reservationId" "guestName" _
          (by decide),
        filter_field_propertyErrors_ne n "reservationId" "status" _
          (by decide),
        filter_field_propertyErrors_ne n "reservationId" "checkInDate" _
          (by decide),
        filter_field_propertyErrors_ne n "reservationId" "checkOutDate" _
          (by decide),
        filter_field_propertyErrors_eq n "reservationId" _ (by decide)]
    simp [mapConstraintToErrorCode]
  · intro dto n h
    unfold validateDto
    rw [h, e2]
    rw [mapValidationErrors_append, mapValidationErrors_append,
        mapValidationErrors_append, mapValidationErrors_append,
        List.filter_append, List.filter_append, List.filter_append,
        List.filter_append]
    rw [filter_field_propertyErrors_ne n "guestName" "reservationId" _
          (by decide),
        filter_field_propertyErrors_ne n "guestName" "status" _ (by decide),
        filter_field_propertyErrors_ne n "guestName" "checkInDate" _
          (by decide),
        filter_field_propertyErrors_ne n "guestName" "checkOutDate" _
          (by decide),
        filter_field_propertyErrors_eq n "guestName" _ (by decide)]
    simp [mapConstraintToErrorCode]
  · intro dto n h
    unfold validateDto
    rw [h, e1, e2]
    rw [mapValidationErrors_append, mapValidationErrors_append,
        mapValidationErrors_append, mapValidationErrors_append,
        List.filter_append, List.filter_append, List.filter_append,
        List.filter_append]
    rw [filter_field_propertyErrors_ne n "status" "reservationId" _
          (by decide),
        filter_field_propertyErrors_ne n "status" "guestName" _ (by decide),
        filter_field_propertyErrors_ne n "status" "checkInDate" _
          (by decide),
        filter_field_propertyErrors_ne n "status" "checkOutDate" _
          (by decide),
        filter_field_propertyErrors_eq n "status" _ (by decide)]
    simp [mapConstraintToErrorCode]
  · intro dto n h
    unfold validateDto
    rw [h, e2, e3]
    rw [mapValidationErrors_append, mapValidationErrors_append,
        mapValidationErrors_append, mapValidationErrors_append,
        List.filter_append, List.filter_append, List.filter_append,
        List.filter_append]
    rw [filter_field_propertyErrors_ne n "checkInDate" "reservationId" _
          (by decide),
        filter_field_propertyErrors_ne n "checkInDate" "guestName" _
          (by decide),
        filter_field_propertyErrors_ne n "checkInDate" "status" _
          (by decide),
        filter_field_propertyErrors_ne n "checkInDate" "checkOutDate" _
          (by decide),
        filter_field_propertyErrors_eq n "checkInDate" _ (by decide)]
    simp [mapConstraintToErrorCode]
  · intro dto n h
    have e5 : (if isCheckOutAfterCheckInB dto.checkInDate "" then
        ([] : List ConstraintKind) else [.isCheckOutAfterCheckIn]) = [] := by
      unfold isCheckOutAfterCheckInB
      simp
    unfold validateDto
    rw [h, e2, e3, e5]
    rw [mapValidationErrors_append, mapValidationErrors_append,
        mapValidationErrors_append, mapValidationErrors_append,
        List.filter_append, List.filter_append, List.filter_append,
        List.filter_append]
    rw [filter_field_propertyErrors_ne n "checkOutDate" "reservationId" _
          (by decide),
        filter_field_propertyErrors_ne n "checkOutDate" "guestName" _
          (by decide),
        filter_field_propertyErrors_ne n "checkOutDate" "status" _
          (by decide),
        filter_field_propertyErrors_ne n "checkOutDate" "checkInDate" _
          (by decide),
        filter_field_propertyErrors_eq n "checkOutDate" _ (by decide)]
    simp [mapConstraintToErrorCode]
  · intro taskId fault st r hv
    by_cases hdup : ((mapRowToDto r).reservationId ≠ "" ∧
        (mapRowToDto r).reservationId ∈ st.seen)
    · rw [stepRow_eq_dup taskId fault st r hdup.1 hdup.2]
      simp
    · have hd : (mapRowToDto r).reservationId = "" ∨
          (mapRowToDto r).reservationId ∉ st.seen := by
        by_cases he : (mapRowToDto r).reservationId = ""
        · exact Or.inl he
        · exact Or.inr (fun hm => hdup ⟨he, hm⟩)
      rw [stepRow_eq_invalid taskId fault st r hd hv]
      simp

/-- Witness for C4's amended theorem: each missing-field case evaluated
at a concrete row, and the no-store-write clause at a concrete invalid
row. -/
theorem c4_witness :
    (mapValidationErrors 2
      (validateDto ⟨"", "Jan Nowak", "oczekująca", "2024-05-01",
        "2024-05-07"⟩)).filter (fun e => e.field = some "reservationId") =
      [⟨2, .MISSING_FIELD, some "reservationId", none⟩] ∧
    (mapValidationErrors 2
      (validateDto ⟨"R1", "Jan Nowak", "", "2024-05-01",
        "2024-05-07"⟩)).filter (fun e => e.field = some "status") =
      [⟨2, .INVALID_STATUS, some "status", none⟩] ∧
    (stepRow "t1" noFault (initState []) (invalidRow 2 "R1")).store = [] ∧
    (stepRow "t1" noFault (initState []) (invalidRow 2 "R1")).storeOps = [] ∧
    (stepRow "t1" noFault (initState []) (invalidRow 2 "R1")).breCalls =
      [] := by
  have h := c4_amended_missing_field_codes
  have h6 := h.2.2.2.2.2 "t1" noFault (initState []) (invalidRow 2 "R1")
    (by decide)
  exact ⟨h.1 _ 2 rfl, h.2.2.1 _ 2 rfl,
    by simpa [initState] using h6.1, by simpa [initState] using h6.2.1,
    by simpa [initState] using h6.2.2⟩

/-- Claim C7, counterexample: the checkout-before-checkin code is
emitted although the check-in date does not parse.  With the unparsable
`not-a-date` it appears alongside invalid-date for the check-in field;
with `2024-02-30` — which passes the layout-only `IsDateString` check
but is an Invalid Date — it is even the row's sole Error Item.  The
comparison is skipped only for empty dates, and `new Date` NaN
semantics make the comparison fail. -/
theorem c7_counterexample :
    jsParseDate "not-a-date" = none ∧
    (⟨2, .CHECKOUT_BEFORE_CHECKIN, some "checkOutDate", none⟩ :
        RawReportError) ∈
      mapValidationErrors 2
        (validateDto ⟨"R1", "Jan Nowak", "oczekująca", "not-a-date",
          "2024-05-07"⟩) ∧
    (⟨2, .INVALID_DATE, some "checkInDate", none⟩ : RawReportError) ∈
      mapValidationErrors 2
        (validateDto ⟨"R1", "Jan Nowak", "oczekująca", "not-a-date",
          "2024-05-07"⟩) ∧
    isDateStringB "2024-02-30" = true ∧
    jsParseDate "2024-02-30" = none ∧
    mapValidationErrors 2
      (validateDto ⟨"R1", "Jan Nowak", "oczekująca", "2024-02-30",
        "2024-05-07"⟩) =
      [⟨2, .CHECKOUT_BEFORE_CHECKIN, some "checkOutDate", none⟩] := by
  refine ⟨by decide, by decide, by decide, by decide, by decide, by decide⟩

/-- Claim C7 (amended): for rows whose date cells are empty or
`YYYY-MM-DD`-shaped — the domain on which the model's date leaves agree
with `new Date` and the non-strict `isISO8601` check — the
checkout-before-checkin code is emitted exactly when the check-in date
is non-empty, the check-out date passes the layout-only format check,
and the JS comparison `new Date(checkOut) > new Date(checkIn)` is false.
That includes rows where both dates parse with check-out not strictly
after check-in, and rows whose format-valid check-in (e.g. `2024-02-30`)
fails to parse, since a NaN comparison is false.  When either date is
empty the comparison is skipped and no such code is emitted (an empty
date's own violation carries the invalid-date code). -/
theorem c7_amended_checkout_code_characterization
    (dto : ReservationRowDto) (n : Nat)
    (_hci : dto.checkInDate = "" ∨ (parseYMD dto.checkInDate).isSome)
    (_hco : dto.checkOutDate = "" ∨ (parseYMD dto.checkOutDate).isSome) :
    (mapValidationErrors n (validateDto dto)).filter
      (fun e => e.code = ReportErrorCode.CHECKOUT_BEFORE_CHECKIN) =
    if dto.checkInDate ≠ "" ∧ isDateStringB dto.checkOutDate = true ∧
        jsDateGt (jsParseDate dto.checkOutDate)
          (jsParseDate dto.checkInDate) = false
    then [⟨n, .CHECKOUT_BEFORE_CHECKIN, some "checkOutDate", none⟩]
    else [] := by
  unfold validateDto
  rw [mapValidationErrors_append, mapValidationErrors_append,
      mapValidationErrors_append, mapValidationErrors_append,
      List.filter_append, List.filter_append, List.filter_append,
      List.filter_append]
  rw [filter_code_propertyErrors_ne n "reservationId" _
        (mapConstraintToErrorCode_ne_checkout _ _
          (by split_ifs <;> decide)),
      filter_code_propertyErrors_ne n "guestName" _
        (mapConstraintToErrorCode_ne_checkout _ _
          (by split_ifs <;> decide)),
      filter_code_propertyErrors_ne n "status" _
        (mapConstraintToErrorCode_ne_checkout _ _
          (by split_ifs <;> decide)),
      filter_code_propertyErrors_ne n "checkInDate" _
        (mapConstraintToErrorCode_ne_checkout _ _
          (by split_ifs <;> decide))]
  simp only [List.nil_append]
  by_cases hcmp : isCheckOutAfterCheckInB dto.checkInDate
      dto.checkOutDate = true
  · have eC : (if isCheckOutAfterCheckInB dto.checkInDate dto.checkOutDate
        then ([] : List ConstraintKind)
        else [.isCheckOutAfterCheckIn]) = [] := by simp [hcmp]
    rw [eC,
      filter_code_propertyErrors_ne n "checkOutDate" _
        (mapConstraintToErrorCode_ne_checkout _ _
          (by split_ifs <;> decide))]
    rw [if_neg]
    rintro ⟨hci, hds, hgt⟩
    have hco := isDateStringB_ne_empty _ hds
    unfold isCheckOutAfterCheckInB at hcmp
    simp [hci, hco] at hcmp
    rw [hcmp] at hgt
    exact absurd hgt (by decide)
  · have hcmp' : isCheckOutAfterCheckInB dto.checkInDate
        dto.checkOutDate = false := by simpa using hcmp
    have hsplit : dto.checkInDate ≠ "" ∧ dto.checkOutDate ≠ "" ∧
        jsDateGt (jsParseDate dto.checkOutDate)
          (jsParseDate dto.checkInDate) = false := by
      unfold isCheckOutAfterCheckInB at hcmp'
      by_cases h1 : dto.checkInDate = ""
      · simp [h1] at hcmp'
      · by_cases h2 : dto.checkOutDate = ""
        · simp [h2] at hcmp'
        · simp [h1, h2] at hcmp'
          exact ⟨h1, h2, hcmp'⟩
    obtain ⟨hci, hco, hgt⟩ := hsplit
    have eC : (if isCheckOutAfterCheckInB dto.checkInDate dto.checkOutDate
        then ([] : List ConstraintKind)
        else [.isCheckOutAfterCheckIn]) = [.isCheckOutAfterCheckIn] := by
      simp [hcmp']
    have eB : (if isNotEmptyB dto.checkOutDate then
        ([] : List ConstraintKind) else [.isNotEmpty]) = [] := by
      simp [isNotEmptyB, hco]
    rw [eC, eB]
    by_cases hds : isDateStringB dto.checkOutDate = true
    · have eA : (if isDateStringB dto.checkOutDate then
          ([] : List ConstraintKind) else [.isDateString]) = [] := by
        simp [hds]
      rw [eA, if_pos ⟨hci, hds, hgt⟩]
      simp [propertyErrors, mapValidationErrors, mapConstraintToErrorCode]
    · have hds' : isDateStringB dto.checkOutDate = false := by simpa using hds
      have eA : (if isDateStringB dto.checkOutDate then
          ([] : List ConstraintKind) else [.isDateString]) =
          [.isDateString] := by simp [hds']
      rw [eA,
        filter_code_propertyErrors_ne n "checkOutDate" _ (by decide)]
      rw [if_neg]
      rintro ⟨_, habs, _⟩
      rw [hds'] at habs
      exact absurd habs (by decide)

/-- Witness for C7's amended theorem: a parsable check-out not after a
parsable check-in triggers the code; an empty check-in does not. -/
theorem c7_witness :
    (mapValidationErrors 2 (validateDto ⟨"R1", "Jan Nowak", "oczekująca",
      "2024-05-07", "2024-05-01"⟩)).filter
      (fun e => e.code = ReportErrorCode.CHECKOUT_BEFORE_CHECKIN) =
      [⟨2, .CHECKOUT_BEFORE_CHECKIN, some "checkOutDate", none⟩] ∧
    (mapValidationErrors 2 (validateDto ⟨"R1", "Jan Nowak", "oczekująca",
      "", "2024-05-07"⟩)).filter
      (fun e => e.code = ReportErrorCode.CHECKOUT_BEFORE_CHECKIN) = [] := by
  have hA := c7_amended_checkout_code_characterization
    ⟨"R1", "Jan Nowak", "oczekująca", "2024-05-07", "2024-05-01"⟩ 2
    (Or.inr (by decide)) (Or.inr (by decide))
  have hB := c7_amended_checkout_code_characterization
    ⟨"R1", "Jan Nowak", "oczekująca", "", "2024-05-07"⟩ 2
    (Or.inl rfl) (Or.inr (by decide))
  rw [hA, hB]
  exact ⟨by decide, by decide⟩

/-- Claim C8: an empty accumulated error list produces no report
artifact and leaves the task's report reference empty; a non-empty list
is serialized once, in encounter order, as the artifact
`reports/<taskId>-report.json`, whose reference is attached to the task —
and with monotone stream row numbers the serialized items are
row-ascending. -/
theorem c8_report_artifact_conditions (taskId : String) (task : Task)
    (ws : List (List Row)) (fault : FaultOracle) (store : ReservationStore) :
    ((runJob taskId task ws fault none store).rawErrors = [] →
      (runJob taskId task ws fault none store).reportWrite = none ∧
      (runJob taskId task ws fault none store).report = ⟨"", []⟩ ∧
      (runJob taskId task ws fault none store).task.reportPath = "") ∧
    ((runJob taskId task ws fault none store).rawErrors ≠ [] →
      (runJob taskId task ws fault none store).report.items =
        (runJob taskId task ws fault none store).rawErrors.map mapError ∧
      (runJob taskId task ws fault none store).report.path =
        "reports/" ++ taskId ++ "-report.json" ∧
      (runJob taskId task ws fault none store).reportWrite =
        some ("reports/" ++ taskId ++ "-report.json",
          (runJob taskId task ws fault none store).rawErrors.map mapError) ∧
      (runJob taskId task ws fault none store).task.reportPath =
        "reports/" ++ taskId ++ "-report.json") ∧
    (((dataRows ws).map Row.number).Sorted (· ≤ ·) →
      ((runJob taskId task ws fault none store).report.items.map
        ErrorReportItem.row).Sorted (· ≤ ·)) := by
  have hraw : (runJob taskId task ws fault none store).rawErrors =
      (runRows taskId fault (initState store) (dataRows ws)).rawErrors := by
    simp [runJob]
  refine ⟨?_, ?_, ?_⟩
  · intro h
    rw [hraw] at h
    refine ⟨?_, ?_, ?_⟩ <;> simp [runJob, generateReport, h]
  · intro h
    rw [hraw] at h
    refine ⟨?_, ?_, ?_, ?_⟩ <;> simp [runJob, generateReport, h, hraw]
  · intro hs
    have hone : ((runRows taskId fault (initState store)
        (dataRows ws)).rawErrors.map RawReportError.row).Sorted (· ≤ ·) :=
      runRows_errors_sorted taskId fault (dataRows ws) (initState store)
        (by simp [initState]) (by simp [initState]) hs
    by_cases hE : (runRows taskId fault (initState store)
        (dataRows ws)).rawErrors = []
    · have hempty : (runJob taskId task ws fault none store).report.items =
          [] := by
        simp [runJob, generateReport, hE]
      rw [hempty]
      simp
    · have hitems : (runJob taskId task ws fault none store).report.items =
          (runRows taskId fault (initState store)
            (dataRows ws)).rawErrors.map mapError := by
        simp [runJob, generateReport, hE]
      rw [hitems, List.map_map]
      have hcomp : (ErrorReportItem.row ∘ mapError) = RawReportError.row :=
        funext mapError_row
      rw [hcomp]
      exact hone

/-- Witness for C8: a job with one missing-name row yields a written,
addressed artifact; a job over an empty worksheet yields none. -/
theorem c8_witness :
    (runJob "t1" sampleTask [[headerRow, invalidRow 2 "R1"]] noFault none
      []).rawErrors ≠ [] ∧
    (runJob "t1" sampleTask [[headerRow, invalidRow 2 "R1"]] noFault none
      []).reportWrite =
      some ("reports/t1-report.json",
        (runJob "t1" sampleTask [[headerRow, invalidRow 2 "R1"]] noFault none
          []).rawErrors.map mapError) ∧
    (runJob "t1" sampleTask [[headerRow]] noFault none []).rawErrors = [] ∧
    (runJob "t1" sampleTask [[headerRow]] noFault none []).reportWrite =
      none := by
  have h1 := (c8_report_artifact_conditions "t1" sampleTask
    [[headerRow, invalidRow 2 "R1"]] noFault []).2.1 (by decide)
  have h2 := (c8_report_artifact_conditions "t1" sampleTask
    [[headerRow]] noFault []).1 (by decide)
  exact ⟨by decide, h1.2.2.1, by decide, h2.1⟩

/-- Claim C2: when exactly two rows of a file carry the same non-empty
key and both pass field validation, only the second is reported as a
duplicate (at its row number, with the key as field) and only the first
reaches the Business Rule Engine; and since a key enters the seen-set
only after validation passes, an earlier invalid row with the key does
not cause a later valid row with the same key to be flagged — the valid
row is processed and no duplicate is reported for the key. -/
theorem c2_duplicate_tracking :
    (∀ (taskId : String) (task : Task) (ws : List (List Row))
      (fault : FaultOracle) (store : ReservationStore)
      (pre mid post : List Row) (r1 r2 : Row) (k : String),
      dataRows ws = pre ++ r1 :: mid ++ r2 :: post →
      (mapRowToDto r1).reservationId = k →
      (mapRowToDto r2).reservationId = k →
      k ≠ "" →
      validateDto (mapRowToDto r1) = [] →
      validateDto (mapRowToDto r2) = [] →
      (∀ r ∈ pre, (mapRowToDto r).reservationId ≠ k) →
      (∀ r ∈ mid, (mapRowToDto r).reservationId ≠ k) →
      (∀ r ∈ post, (mapRowToDto r).reservationId ≠ k) →
      fault r1.number = none →
      (runJob taskId task ws fault none store).rawErrors.filter
        (isDupFor k) = [⟨r2.number, .DUPLICATE, some k, none⟩] ∧
      (runJob taskId task ws fault none store).breCalls.filter
        (isCallFor k) = [(r1.number, mapRowToDto r1)]) ∧
    (∀ (taskId : String) (task : Task) (ws : List (List Row))
      (fault : FaultOracle) (store : ReservationStore)
      (pre mid post : List Row) (rI rV : Row) (k : String),
      dataRows ws = pre ++ rI :: mid ++ rV :: post →
      (mapRowToDto rI).reservationId = k →
      (mapRowToDto rV).reservationId = k →
      k ≠ "" →
      validateDto (mapRowToDto rI) ≠ [] →
      validateDto (mapRowToDto rV) = [] →
      (∀ r ∈ pre, (mapRowToDto r).reservationId ≠ k) →
      (∀ r ∈ mid, (mapRowToDto r).reservationId ≠ k) →
      (∀ r ∈ post, (mapRowToDto r).reservationId ≠ k) →
      fault rV.number = none →
      (runJob taskId task ws fault none store).rawErrors.filter
        (isDupFor k) = [] ∧
      (runJob taskId task ws fault none store).breCalls.filter
        (isCallFor k) = [(rV.number, mapRowToDto rV)]) := by
  constructor
  · intro taskId task ws fault store pre mid post r1 r2 k hws hk1 hk2 hkne
      hv1 hv2 hpre hmid hpost hf1
    have hraw : (runJob taskId task ws fault none store).rawErrors =
        (runRows taskId fault (initState store) (dataRows ws)).rawErrors :=
      by simp [runJob]
    have hcalls : (runJob taskId task ws fault none store).breCalls =
        (runRows taskId fault (initState store) (dataRows ws)).breCalls :=
      by simp [runJob]
    rw [hraw, hcalls, hws, runRows_append, runRows_cons, runRows_append,
      runRows_cons]
    have hpreF := runRows_keyFree taskId fault pre (initState store) k hpre
    obtain ⟨s1, hs1⟩ : ∃ s, runRows taskId fault (initState store) pre = s :=
      ⟨_, rfl⟩
    rw [hs1]
    rw [hs1] at hpreF
    have hknotin1 : k ∉ s1.seen := by
      intro hmem
      have := hpreF.2.2.mp hmem
      simp [initState] at this
    have hd1 : (mapRowToDto r1).reservationId = "" ∨
        (mapRowToDto r1).reservationId ∉ s1.seen :=
      Or.inr (by rw [hk1]; exact hknotin1)
    have hstep2 := stepRow_eq_valid taskId fault s1 r1 hd1 hv1 hf1
    obtain ⟨s2, hs2⟩ : ∃ s, stepRow taskId fault s1 r1 = s := ⟨_, rfl⟩
    rw [hs2]
    rw [hs2] at hstep2
    have h2raw : s2.rawErrors = s1.rawErrors := by rw [hstep2]; simp
    have h2calls : s2.breCalls =
        s1.breCalls ++ [(r1.number, mapRowToDto r1)] := by
      rw [hstep2]; simp
    have h2seen : k ∈ s2.seen := by
      rw [hstep2]
      simp [hk1]
    have hmidF := runRows_keyFree taskId fault mid s2 k hmid
    obtain ⟨s3, hs3⟩ : ∃ s, runRows taskId fault s2 mid = s := ⟨_, rfl⟩
    rw [hs3]
    rw [hs3] at hmidF
    have h1r2 : (mapRowToDto r2).reservationId ≠ "" := by
      rw [hk2]; exact hkne
    have h2r2 : (mapRowToDto r2).reservationId ∈ s3.seen := by
      rw [hk2]
      exact hmidF.2.2.mpr h2seen
    have hstep4 := stepRow_eq_dup taskId fault s3 r2 h1r2 h2r2
    obtain ⟨s4, hs4⟩ : ∃ s, stepRow taskId fault s3 r2 = s := ⟨_, rfl⟩
    rw [hs4]
    rw [hs4] at hstep4
    have h4raw : s4.rawErrors =
        s3.rawErrors ++ [⟨r2.number, .DUPLICATE, some k, none⟩] := by
      rw [hstep4, hk2]
      simp
    have h4calls : s4.breCalls = s3.breCalls := by rw [hstep4]; simp
    have hpostF := runRows_keyFree taskId fault post s4 k hpost
    constructor
    · rw [hpostF.1, h4raw, List.filter_append, hmidF.1, h2raw, hpreF.1]
      simp [initState, isDupFor]
    · rw [hpostF.2.1, h4calls, hmidF.2.1, h2calls, List.filter_append,
        hpreF.2.1]
      simp [initState, isCallFor, hk1]
  · intro taskId task ws fault store pre mid post rI rV k hws hkI hkV hkne
      hvI hvV hpre hmid hpost hfV
    have hraw : (runJob taskId task ws fault none store).rawErrors =
        (runRows taskId fault (initState store) (dataRows ws)).rawErrors :=
      by simp [runJob]
    have hcalls : (runJob taskId task ws fault none store).breCalls =
        (runRows taskId fault (initState store) (dataRows ws)).breCalls :=
      by simp [runJob]
    rw [hraw, hcalls, hws, runRows_append, runRows_cons, runRows_append,
      runRows_cons]
    have hpreF := runRows_keyFree taskId fault pre (initState store) k hpre
    obtain ⟨s1, hs1⟩ : ∃ s, runRows taskId fault (initState store) pre = s :=
      ⟨_, rfl⟩
    rw [hs1]
    rw [hs1] at hpreF
    have hknotin1 : k ∉ s1.seen := by
      intro hmem
      have := hpreF.2.2.mp hmem
      simp [initState] at this
    have hdI : (mapRowToDto rI).reservationId = "" ∨
        (mapRowToDto rI).reservationId ∉ s1.seen :=
      Or.inr (by rw [hkI]; exact hknotin1)
    have hstep2 := stepRow_eq_invalid taskId fault s1 rI hdI hvI
    obtain ⟨s2, hs2⟩ : ∃ s, stepRow taskId fault s1 rI = s := ⟨_, rfl⟩
    rw [hs2]
    rw [hs2] at hstep2
    have h2raw : s2.rawErrors = s1.rawErrors ++
        mapValidationErrors rI.number (validateDto (mapRowToDto rI)) := by
      rw [hstep2]; simp
    have h2calls : s2.breCalls = s1.breCalls := by rw [hstep2]; simp
    have h2seen : k ∉ s2.seen := by
      rw [hstep2]
      simpa using hknotin1
    have hmidF := runRows_keyFree taskId fault mid s2 k hmid
    obtain ⟨s3, hs3⟩ : ∃ s, runRows taskId fault s2 mid = s := ⟨_, rfl⟩
    rw [hs3]
    rw [hs3] at hmidF
    have h3seen : k ∉ s3.seen := by
      intro hmem
      exact h2seen (hmidF.2.2.mp hmem)
    have hdV : (mapRowToDto rV).reservationId = "" ∨
        (mapRowToDto rV).reservationId ∉ s3.seen :=
      Or.inr (by rw [hkV]; exact h3seen)
    have hstep4 := stepRow_eq_valid taskId fault s3 rV hdV hvV hfV
    obtain ⟨s4, hs4⟩ : ∃ s, stepRow taskId fault s3 rV = s := ⟨_, rfl⟩
    rw [hs4]
    rw [hs4] at hstep4
    have h4raw : s4.rawErrors = s3.rawErrors := by rw [hstep4]; simp
    have h4calls : s4.breCalls =
        s3.breCalls ++ [(rV.number, mapRowToDto rV)] := by
      rw [hstep4]; simp
    have hpostF := runRows_keyFree taskId fault post s4 k hpost
    constructor
    · rw [hpostF.1, h4raw, hmidF.1, h2raw, List.filter_append, hpreF.1]
      simp [initState, filter_dup_mapValidationErrors]
    · rw [hpostF.2.1, h4calls, List.filter_append, hmidF.2.1, h2calls,
        hpreF.2.1]
      simp [initState, isCallFor, hkV]

/-- Witness for C2: both parts instantiated on concrete two-row files
with key `R1`. -/
theorem c2_witness :
    (runJob "t1" sampleTask [[headerRow, validRow 2 "R1", validRow 3 "R1"]]
      noFault none []).rawErrors.filter (isDupFor "R1") =
      [⟨3, .DUPLICATE, some "R1", none⟩] ∧
    (runJob "t1" sampleTask [[headerRow, validRow 2 "R1", validRow 3 "R1"]]
      noFault none []).breCalls.filter (isCallFor "R1") =
      [(2, mapRowToDto (validRow 2 "R1"))] ∧
    (runJob "t1" sampleTask [[headerRow, invalidRow 2 "R1", validRow 3 "R1"]]
      noFault none []).rawErrors.filter (isDupFor "R1") = [] ∧
    (runJob "t1" sampleTask [[headerRow, invalidRow 2 "R1", validRow 3 "R1"]]
      noFault none []).breCalls.filter (isCallFor "R1") =
      [(3, mapRowToDto (validRow 3 "R1"))] := by
  have h1 := c2_duplicate_tracking.1 "t1" sampleTask
    [[headerRow, validRow 2 "R1", validRow 3 "R1"]] noFault [] [] [] []
    (validRow 2 "R1") (validRow 3 "R1") "R1" (by decide) (by decide)
    (by decide) (by decide) (by decide) (by decide) (by simp) (by simp)
    (by simp) rfl
  have h2 := c2_duplicate_tracking.2 "t1" sampleTask
    [[headerRow, invalidRow 2 "R1", validRow 3 "R1"]] noFault [] [] [] []
    (invalidRow 2 "R1") (validRow 3 "R1") "R1" (by decide) (by decide)
    (by decide) (by decide) (by decide) (by decide) (by simp) (by simp)
    (by simp) rfl
  exact ⟨h1.1, h1.2, h2.1, h2.2⟩

/-- Witness for C6: instantiated with a cancelled row whose key `R1` is
present in a one-record store. -/
theorem c6_witness :
    findByReservationId [storedRes] "R1" = some storedRes ∧
    processReservation [storedRes] (mapRowToDto (cancelRow 2 "R1")) =
      ([⟨"R1", "Old Guest", "anulowana", some 100, some 200⟩], true,
        [.findByResId "R1", .statusWrite "R1" "anulowana"]) := by
  refine ⟨by decide, ?_⟩
  have h := (c6_terminal_status_updates_status_only [storedRes]
    (mapRowToDto (cancelRow 2 "R1")) storedRes (Or.inl (by decide))
    (by decide)).1
  rw [h]
  decide

end BPS
